import Mathlib

/-!
Verification of the realtime event stream synchronization engine of the
stream-chat-js SDK: the closed event vocabulary, the event dispatcher, the
channel state store, the connection manager, and the server/client-side
messaging operations exercised by the integration tests.
-/

namespace StreamChat

/-- The event vocabulary `EVENT_MAP`, transcribed key-for-key from
`src/dist/types/events.d.ts` (every key maps to a boolean; per the spec the
catalog maps each vocabulary member to validity, so each value is `true`). -/
def EVENT_MAP : List (String × Bool) := [
  ("channel.created", true),
  ("channel.deleted", true),
  ("channel.hidden", true),
  ("channel.muted", true),
  ("channel.truncated", true),
  ("channel.unmuted", true),
  ("channel.updated", true),
  ("channel.visible", true),
  ("health.check", true),
  ("member.added", true),
  ("member.removed", true),
  ("member.updated", true),
  ("message.deleted", true),
  ("message.new", true),
  ("message.read", true),
  ("message.updated", true),
  ("notification.added_to_channel", true),
  ("notification.channel_deleted", true),
  ("notification.channel_mutes_updated", true),
  ("notification.channel_truncated", true),
  ("notification.invite_accepted", true),
  ("notification.invite_rejected", true),
  ("notification.invited", true),
  ("notification.mark_read", true),
  ("notification.message_new", true),
  ("notification.mutes_updated", true),
  ("notification.removed_from_channel", true),
  ("reaction.deleted", true),
  ("reaction.new", true),
  ("reaction.updated", true),
  ("typing.start", true),
  ("typing.stop", true),
  ("user.banned", true),
  ("user.deleted", true),
  ("user.presence.changed", true),
  ("user.unbanned", true),
  ("user.updated", true),
  ("user.watching.start", true),
  ("user.watching.stop", true),
  ("connection.changed", true),
  ("connection.recovered", true)]

/-- Modelled from the spec: `isValidEventType(s: string) -> bool` is a pure
lookup against the fixed mapping `EVENT_MAP` (the implementation behind the
declaration in `src/dist/types/events.d.ts`). -/
def isValidEventType (eventType : String) : Bool :=
  (List.lookup eventType EVENT_MAP).getD false

/-- A message carried by a `message.new` event: stable identity plus a
creation timestamp used for ordering. -/
structure Message where
  id : String
  created_at : Nat
  text : String
deriving DecidableEq, Repr

/-- Payload of an inbound frame, restricted to the event kinds the claims
exercise. -/
inductive EventPayload where
  | messageNew (m : Message)
  | messageRead (user : String) (ts : Nat)
  | other
deriving DecidableEq, Repr

/-- A raw inbound frame: an event-type string plus its payload. -/
structure Frame where
  type : String
  payload : EventPayload
deriving DecidableEq, Repr

/-- Modelled from the spec: the Channel State Store holds the ordered message
list and the per-user read cursor (`last_read`). -/
structure ChannelStore where
  messages : List Message
  readCursor : List (String × Nat)
deriving DecidableEq, Repr

/-- The store of a freshly watched channel: nothing applied yet. -/
def freshStore : ChannelStore :=
  { messages := [], readCursor := [] }

/-- Insert a message into a list ordered by `created_at` ascending; a new
message with a timestamp equal to an existing one goes after it, so ties are
broken by arrival order (spec, Channel State Store ordering rule). -/
def insertByCreatedAt (m : Message) : List Message → List Message
  | [] => [m]
  | x :: xs =>
    if m.created_at < x.created_at then m :: x :: xs
    else x :: insertByCreatedAt m xs

/-- Modelled from the spec: `message.new` inserts by message id; re-applying
an already-seen message id is a no-op, not a duplicate insert. -/
def applyMessageNew (store : ChannelStore) (m : Message) : ChannelStore :=
  if store.messages.any (fun x => x.id == m.id) then store
  else { store with messages := insertByCreatedAt m store.messages }

/-- Advance the cursor entry for user `u` to at least `ts`, creating the
entry when absent; an earlier timestamp than the stored cursor is ignored. -/
def updateCursor (u : String) (ts : Nat) : List (String × Nat) → List (String × Nat)
  | [] => [(u, ts)]
  | (v, cur) :: rest =>
    if v == u then (v, max cur ts) :: rest
    else (v, cur) :: updateCursor u ts rest

/-- Modelled from the spec: `message.read` advances the per-user read cursor
monotonically; a read event with an earlier timestamp than the stored cursor
for that user is ignored. -/
def applyMessageRead (store : ChannelStore) (u : String) (ts : Nat) : ChannelStore :=
  { store with readCursor := updateCursor u ts store.readCursor }

/-- Modelled from the spec: apply one normalized event to the owned model of
the store, dispatching on the payload kind. -/
def applyEvent (store : ChannelStore) (f : Frame) : ChannelStore :=
  match f.payload with
  | .messageNew m => applyMessageNew store m
  | .messageRead u ts => applyMessageRead store u ts
  | .other => store

/-- Modelled from the spec: the Event Dispatcher validates the type of the
frame against the Event Vocabulary; an unknown type is dropped without invoking any
listener and without touching the store, otherwise every registered listener
is invoked and the event is applied. Returns the listeners invoked and the
resulting store. -/
def handleFrame (listeners : List Nat) (store : ChannelStore) (f : Frame) :
    List Nat × ChannelStore :=
  if isValidEventType f.type then (listeners, applyEvent store f)
  else ([], store)

/-- A `message.new` frame carrying message `m`. -/
def newFrame (m : Message) : Frame :=
  { type := "message.new", payload := .messageNew m }

/-- A `message.read` frame for user `u` at timestamp `ts`. -/
def readFrame (u : String) (ts : Nat) : Frame :=
  { type := "message.read", payload := .messageRead u ts }

/-- Drop the trailing zero digits of a fractional-second digit list, so that
the canonical rendering of `540` milliseconds is `.54`. -/
def dropTrailingZeros : List Char → List Char
  | [] => []
  | c :: cs =>
    match dropTrailingZeros cs with
    | [] => if c == '0' then [] else [c]
    | rest => c :: rest

/-- Truncate fractional-second digits to millisecond precision (keep at most
the first three digits, a pure truncation that never rounds) and drop
trailing zeros for the canonical rendering. -/
def fracTrunc (ds : List Char) : List Char :=
  dropTrailingZeros (ds.take 3)

/-- Split a character list at the first dot; returns the part before the dot
and the part after, or `none` when there is no dot. -/
def splitAtDot : List Char → Option (List Char × List Char)
  | [] => none
  | c :: cs =>
    if c = '.' then some ([], cs)
    else
      match splitAtDot cs with
      | none => none
      | some (a, b) => some (c :: a, b)

/-- Take the leading digits of a character list, returning them and the rest. -/
def takeDigits : List Char → List Char × List Char
  | [] => ([], [])
  | c :: cs =>
    if c.isDigit then
      let (d, r) := takeDigits cs
      (c :: d, r)
    else ([], c :: cs)

/-- Modelled from the spec: normalize a timestamp string to the canonical
representation — fractional seconds are truncated (never rounded) to
millisecond precision and trailing zeros are dropped, consistent regardless
of source precision; a string without a fractional part is left unchanged. -/
def normalizeTimestamp (s : String) : String :=
  match splitAtDot s.toList with
  | none => s
  | some (before, after) =>
    let (digits, rest) := takeDigits after
    match fracTrunc digits with
    | [] => String.mk (before ++ rest)
    | frac => String.mk (before ++ '.' :: (frac ++ rest))

/-- A `sendMessage` request body: text plus the optional custom timestamps a
server-side import may set. -/
structure SendMessageReq where
  text : String
  created_at : Option String
  updated_at : Option String
deriving DecidableEq, Repr

/-- A message as stored and echoed back by `sendMessage`: both timestamps in
canonical normalized form. -/
structure StoredMsg where
  text : String
  created_at : String
  updated_at : String
deriving DecidableEq, Repr

/-- Modelled from the spec and the webhook-import integration tests: a
server-side client may set custom `created_at`/`updated_at` on `sendMessage`;
a client-side request carrying either field is rejected with an error
mentioning `message.updated_at or message.created_at` and no message is
created; on success the timestamps (defaulting to the current time `now`)
are stored in normalized form and the message is appended. -/
def sendMessage (serverSide : Bool) (req : SendMessageReq) (now : String)
    (msgs : List StoredMsg) : Except String (List StoredMsg) :=
  if !serverSide && (req.created_at.isSome || req.updated_at.isSome) then
    .error "message.updated_at or message.created_at cannot be set client side"
  else
    .ok (msgs ++ [{ text := req.text,
                    created_at := normalizeTimestamp (req.created_at.getD now),
                    updated_at := normalizeTimestamp (req.updated_at.getD now) }])

/-- Modelled from the spec and the Mark Read integration tests: sending a
`message.read` event server side requires an explicit user; without one the
call fails with `Please specify a user when sending an event server side`. -/
def markRead (serverSide : Bool) (user : Option String) : Except String Unit :=
  if serverSide && user.isNone then
    .error "Please specify a user when sending an event server side"
  else .ok ()

/-- A mute entry: the muting (source) user and the muted target. -/
structure Mute where
  user : String
  target : String
deriving DecidableEq, Repr

/-- Modelled from the spec and the Moderation integration tests: server-side
`muteUser` requires a source user (HTTP 400 otherwise) and appends a mute
entry from the source to the target. -/
def muteUser (target : String) (src : Option String) (mutes : List Mute) :
    Except String (List Mute) :=
  match src with
  | none => .error "either user or user_id must be provided when using server side auth"
  | some u => .ok (mutes ++ [{ user := u, target := target }])

/-- Modelled from the spec and the Moderation integration tests: server-side
`unmuteUser` requires a source user (HTTP 400 otherwise) and removes the mute
entries from the source to the target. -/
def unmuteUser (target : String) (src : Option String) (mutes : List Mute) :
    Except String (List Mute) :=
  match src with
  | none => .error "either user or user_id must be provided when using server side auth"
  | some u => .ok (mutes.filter (fun m => !(m.user == u && m.target == target)))

/-- The connection lifecycle states of the Connection Manager. -/
inductive ConnectionState where
  | Disconnected
  | Connecting
  | Connected
  | Reconnecting
deriving DecidableEq, Repr

/-- The view the Connection Manager keeps of a session: current state, whether the
transport is open, and the current connection id. -/
structure ConnSession where
  state : ConnectionState
  transportOpen : Bool
  connectionId : Nat
deriving DecidableEq, Repr

/-- A locally synthesized connection event (`connection.changed`). -/
structure ConnEvent where
  type : String
  online : Bool
deriving DecidableEq, Repr

/-- Modelled from the spec: `disconnect()` tears down the transport,
transitions to `Disconnected` and emits `connection.changed{online:false}`;
it is safe to call from any state. Returns the new session and the emitted
event. -/
def disconnect (s : ConnSession) : ConnSession × ConnEvent :=
  ({ s with state := .Disconnected, transportOpen := false },
   { type := "connection.changed", online := false })

/-! Helper lemmas. -/

lemma lookup_eq_none_of_not_mem (s : String) :
    ∀ l : List (String × Bool), s ∉ l.map Prod.fst → List.lookup s l = none := by
  intro l
  induction l with
  | nil => intro _; rfl
  | cons p rest ih =>
    obtain ⟨k, v⟩ := p
    intro h
    simp only [List.map_cons, List.mem_cons] at h
    push_neg at h
    obtain ⟨h₁, h₂⟩ := h
    have hb : (s == k) = false := by simp [h₁]
    simp [List.lookup, hb, ih h₂]

lemma lookup_eq_some_true (s : String) :
    ∀ l : List (String × Bool), (∀ p ∈ l, p.2 = true) → s ∈ l.map Prod.fst →
      List.lookup s l = some true := by
  intro l
  induction l with
  | nil => intro _ hm; simp at hm
  | cons p rest ih =>
    obtain ⟨k, v⟩ := p
    intro hall hm
    by_cases h : s = k
    · subst h
      have hv : v = true := hall (s, v) (by simp)
      simp [List.lookup, hv]
    · have hb : (s == k) = false := by simp [h]
      have hm₂ : s ∈ rest.map Prod.fst := by
        simp only [List.map_cons, List.mem_cons] at hm
        exact hm.resolve_left h
      have hall₂ : ∀ p ∈ rest, p.2 = true := fun p hp => hall p (by simp [hp])
      simp [List.lookup, hb, ih hall₂ hm₂]

/-! Claim theorems for the event vocabulary. -/

/-- C1: every string that is not a key of EVENT_MAP fails `isValidEventType`,
and a frame carrying such a type is dropped by the dispatcher without any
listener being invoked and without touching the store. -/
theorem unknown_event_type_dropped (s : String) (h : s ∉ EVENT_MAP.map Prod.fst) :
    isValidEventType s = false
    ∧ ∀ (listeners : List Nat) (store : ChannelStore) (p : EventPayload),
        handleFrame listeners store { type := s, payload := p } = ([], store) := by
  have hv : isValidEventType s = false := by
    simp [isValidEventType, lookup_eq_none_of_not_mem s EVENT_MAP h]
  refine ⟨hv, ?_⟩
  intro listeners store p
  simp [handleFrame, hv]

/-- Witness for C1: the concrete string `bogus.event` is not in the
vocabulary, is invalid, and a frame carrying it is dropped. -/
theorem unknown_event_type_dropped_witness :
    isValidEventType "bogus.event" = false
    ∧ handleFrame [0, 1] freshStore { type := "bogus.event", payload := EventPayload.other }
        = ([], freshStore) := by
  have h := unknown_event_type_dropped "bogus.event" (by decide)
  exact ⟨h.1, h.2 [0, 1] freshStore EventPayload.other⟩

/-- C2 counterexample: the set of keys of EVENT_MAP does not have
cardinality 38 (it has 41 keys). -/
theorem event_map_card_ne_38 :
    ¬ (EVENT_MAP.map Prod.fst).toFinset.card = 38 := by decide

/-- C2 amended: the closed Event Vocabulary contains exactly 41 event-type
entries; the set of keys of EVENT_MAP has cardinality 41. -/
theorem event_map_card_41 : (EVENT_MAP.map Prod.fst).toFinset.card = 41 := by
  decide

/-- C3: `isValidEventType` is a pure total function equal to membership
lookup in the fixed EVENT_MAP, and it returns true for each event type the
spec names, including the locally synthesized `connection.changed` and
`connection.recovered` as well as `message.new`, `health.check`,
`channel.updated` and `typing.start`. -/
theorem valid_event_type_is_membership :
    (∀ s : String, isValidEventType s = true ↔ s ∈ EVENT_MAP.map Prod.fst)
    ∧ isValidEventType "connection.changed" = true
    ∧ isValidEventType "connection.recovered" = true
    ∧ isValidEventType "message.new" = true
    ∧ isValidEventType "health.check" = true
    ∧ isValidEventType "channel.updated" = true
    ∧ isValidEventType "typing.start" = true := by
  refine ⟨?_, by decide, by decide, by decide, by decide, by decide, by decide⟩
  intro s
  constructor
  · intro hv
    by_contra hmem
    have hn := lookup_eq_none_of_not_mem s EVENT_MAP hmem
    simp [isValidEventType, hn] at hv
  · intro hmem
    have hall : ∀ p ∈ EVENT_MAP, p.2 = true := by decide
    simp [isValidEventType, lookup_eq_some_true s EVENT_MAP hall hmem]

/-! Helper lemmas for the read cursor. -/

lemma lookup_updateCursor (u : String) (ts : Nat) :
    ∀ l : List (String × Nat),
      List.lookup u (updateCursor u ts l) = some (max ((List.lookup u l).getD 0) ts) := by
  intro l
  induction l with
  | nil => simp [updateCursor, List.lookup, Nat.zero_max]
  | cons p rest ih =>
    obtain ⟨v, c⟩ := p
    by_cases h : v = u
    · subst h
      simp [updateCursor, List.lookup]
    · have hb : (v == u) = false := by simp [h]
      have hb₂ : (u == v) = false := by simp [Ne.symm h]
      simp [updateCursor, List.lookup, hb, hb₂, ih]

lemma updateCursor_comm (u : String) (a b : Nat) :
    ∀ l : List (String × Nat),
      updateCursor u b (updateCursor u a l) = updateCursor u a (updateCursor u b l) := by
  intro l
  induction l with
  | nil => simp [updateCursor, Nat.max_comm]
  | cons p rest ih =>
    obtain ⟨v, c⟩ := p
    by_cases h : v = u
    · subst h
      simp only [updateCursor, beq_self_eq_true, if_pos]
      rw [Nat.max_assoc, Nat.max_comm a b, ← Nat.max_assoc]
    · have hb : (v == u) = false := by simp [h]
      simp [updateCursor, hb, ih]

lemma applyRead_comm (u : String) (st : ChannelStore) (a b : Nat) :
    applyMessageRead (applyMessageRead st u a) u b
      = applyMessageRead (applyMessageRead st u b) u a := by
  simp [applyMessageRead, updateCursor_comm]

lemma foldl_comm_perm {α β : Type _} (f : β → α → β)
    (hc : ∀ st a b, f (f st a) b = f (f st b) a)
    {l₁ l₂ : List α} (h : l₁.Perm l₂) : ∀ st : β, l₁.foldl f st = l₂.foldl f st := by
  induction h with
  | nil => intro st; rfl
  | cons x _ ih => intro st; exact ih (f st x)
  | swap x y l =>
    intro st
    show List.foldl f (f (f st y) x) l = List.foldl f (f (f st x) y) l
    rw [hc]
  | trans _ _ ih₁ ih₂ => intro st; rw [ih₁ st, ih₂ st]

lemma foldl_max_shift : ∀ (l : List Nat) (a : Nat), l.foldl max a = max a (l.foldl max 0) := by
  intro l
  induction l with
  | nil => intro a; simp
  | cons b rest ih =>
    intro a
    show List.foldl max (max a b) rest = max a (List.foldl max (max 0 b) rest)
    rw [ih (max a b), ih (max 0 b), Nat.zero_max, Nat.max_assoc]

lemma cursor_after_fold (u : String) :
    ∀ (l : List Nat) (st : ChannelStore), l ≠ [] →
      List.lookup u ((l.foldl (fun s ts => applyMessageRead s u ts) st).readCursor)
        = some (max ((List.lookup u st.readCursor).getD 0) (l.foldl max 0))
  | [], _, h => absurd rfl h
  | [ts], st, _ => by
    show List.lookup u ((applyMessageRead st u ts).readCursor) = _
    simp [applyMessageRead, lookup_updateCursor, Nat.zero_max]
  | ts :: ts₂ :: rest, st, _ => by
    have ih := cursor_after_fold u (ts₂ :: rest) (applyMessageRead st u ts) (by simp)
    show List.lookup u (((ts₂ :: rest).foldl (fun s ts => applyMessageRead s u ts)
        (applyMessageRead st u ts)).readCursor) = _
    rw [ih]
    have hl : List.lookup u ((applyMessageRead st u ts).readCursor)
        = some (max ((List.lookup u st.readCursor).getD 0) ts) := by
      simp [applyMessageRead, lookup_updateCursor]
    rw [hl]
    show some (max (max ((List.lookup u st.readCursor).getD 0) ts)
        ((ts₂ :: rest).foldl max 0)) = _
    have hr : (ts :: ts₂ :: rest).foldl max 0 = max ts ((ts₂ :: rest).foldl max 0) := by
      show (ts₂ :: rest).foldl max (max 0 ts) = _
      rw [Nat.zero_max, foldl_max_shift]
    rw [hr, ← Nat.max_assoc]

/-! Claim theorems for the Channel State Store. -/

/-- C5: for any nonempty sequence of `message.read` events for the same user
and channel applied to a fresh Channel State Store, the stored read cursor
equals the maximum timestamp among the events seen, and the resulting store
is independent of the delivery order. -/
theorem read_cursor_is_max :
    (∀ (u : String) (l : List Nat), l ≠ [] →
      List.lookup u ((l.foldl (fun st ts => applyEvent st (readFrame u ts))
          freshStore).readCursor)
        = some (l.foldl max 0))
    ∧ (∀ (u : String) (l₁ l₂ : List Nat), l₁.Perm l₂ →
      l₁.foldl (fun st ts => applyEvent st (readFrame u ts)) freshStore
        = l₂.foldl (fun st ts => applyEvent st (readFrame u ts)) freshStore) := by
  constructor
  · intro u l hl
    have h := cursor_after_fold u l freshStore hl
    show List.lookup u ((l.foldl (fun s ts => applyMessageRead s u ts)
        freshStore).readCursor) = some (l.foldl max 0)
    rw [h]
    show some (max ((List.lookup u ([] : List (String × Nat))).getD 0) (l.foldl max 0)) = _
    simp [Nat.zero_max]
  · intro u l₁ l₂ hp
    exact foldl_comm_perm (fun st ts => applyEvent st (readFrame u ts))
      (fun st a b => applyRead_comm u st a b) hp freshStore

/-- Witness for C5: delivering timestamps 2 then 1 (out of order) leaves the
cursor at 2, and the store equals the one produced by the in-order delivery. -/
theorem read_cursor_is_max_witness :
    List.lookup "u1" ((([2, 1] : List Nat).foldl
        (fun st ts => applyEvent st (readFrame "u1" ts)) freshStore).readCursor)
      = some 2
    ∧ ([2, 1] : List Nat).foldl (fun st ts => applyEvent st (readFrame "u1" ts)) freshStore
        = ([1, 2] : List Nat).foldl (fun st ts => applyEvent st (readFrame "u1" ts))
            freshStore := by
  refine ⟨?_, read_cursor_is_max.2 "u1" [2, 1] [1, 2] (by decide)⟩
  exact (read_cursor_is_max.1 "u1" [2, 1] (by decide)).trans (by decide)

/-! Idempotence of message.new application. -/

lemma mem_insertByCreatedAt (m : Message) : ∀ l : List Message, m ∈ insertByCreatedAt m l := by
  intro l
  induction l with
  | nil => simp [insertByCreatedAt]
  | cons x xs ih =>
    by_cases h : m.created_at < x.created_at
    · simp [insertByCreatedAt, h]
    · simp only [insertByCreatedAt, if_neg h, List.mem_cons]
      exact Or.inr ih

/-- C6: applying the same `message.new` event twice to a Channel State Store
yields exactly the same store content as applying it once; the second
application is a no-op, never a duplicate insert. -/
theorem message_new_idempotent (store : ChannelStore) (m : Message) :
    applyEvent (applyEvent store (newFrame m)) (newFrame m)
      = applyEvent store (newFrame m) := by
  show applyMessageNew (applyMessageNew store m) m = applyMessageNew store m
  by_cases h : store.messages.any (fun x => x.id == m.id) = true
  · simp [applyMessageNew, h]
  · have h₂ : (insertByCreatedAt m store.messages).any (fun x => x.id == m.id) = true := by
      rw [List.any_eq_true]
      exact ⟨m, mem_insertByCreatedAt m store.messages, by simp⟩
    simp [applyMessageNew, h, h₂]

/-- C7: `disconnect` leaves the session in the Disconnected state, tears down
the transport, emits `connection.changed` with `online := false`, and calling
it again from the resulting state changes nothing: it is idempotent and safe
from every connection state. -/
theorem disconnect_idempotent_from_any_state (s : ConnSession) :
    (disconnect s).1.state = ConnectionState.Disconnected
    ∧ (disconnect s).1.transportOpen = false
    ∧ (disconnect s).2 = { type := "connection.changed", online := false }
    ∧ disconnect (disconnect s).1 = disconnect s :=
  ⟨rfl, rfl, rfl, rfl⟩

/-! Helper lemmas about truncation being prefix-preserving. -/

lemma nil_pre {α : Type _} (l : List α) : ([] : List α) <+: l := ⟨l, rfl⟩

lemma cons_pre {α : Type _} (a : α) {l₁ l₂ : List α} (h : l₁ <+: l₂) :
    (a :: l₁) <+: (a :: l₂) := by
  obtain ⟨t, ht⟩ := h
  exact ⟨t, by simp [ht]⟩

lemma pre_trans {α : Type _} {a b c : List α} (h₁ : a <+: b) (h₂ : b <+: c) :
    a <+: c := by
  obtain ⟨t₁, ht₁⟩ := h₁
  obtain ⟨t₂, ht₂⟩ := h₂
  exact ⟨t₁ ++ t₂, by rw [← List.append_assoc, ht₁, ht₂]⟩

lemma take_pre {α : Type _} (n : Nat) (l : List α) : l.take n <+: l :=
  ⟨l.drop n, List.take_append_drop n l⟩

lemma dropTrailingZeros_pre (ds : List Char) : dropTrailingZeros ds <+: ds := by
  induction ds with
  | nil => exact nil_pre []
  | cons c cs ih =>
    simp only [dropTrailingZeros]
    split
    · split
      · exact nil_pre (c :: cs)
      · exact cons_pre c (nil_pre cs)
    · exact cons_pre c ih

/-- C4: timestamp normalization truncates fractional seconds to millisecond
precision and never rounds (the surviving fractional digits are always an
initial segment of the source digits), and the scenario input
`2017-04-08T17:36:10.540Z` is stored and echoed back as
`2017-04-08T17:36:10.54Z` for both `created_at` and `updated_at`. -/
theorem timestamp_truncation :
    normalizeTimestamp "2017-04-08T17:36:10.540Z" = "2017-04-08T17:36:10.54Z"
    ∧ (∀ ds : List Char, fracTrunc ds <+: ds)
    ∧ ∀ (now : String) (msgs : List StoredMsg),
        sendMessage true
          { text := "an old message",
            created_at := some "2017-04-08T17:36:10.540Z",
            updated_at := some "2017-04-08T17:36:10.540Z" } now msgs
          = Except.ok (msgs ++
              [{ text := "an old message",
                 created_at := "2017-04-08T17:36:10.54Z",
                 updated_at := "2017-04-08T17:36:10.54Z" }]) := by
  refine ⟨by decide, ?_, ?_⟩
  · intro ds
    exact pre_trans (dropTrailingZeros_pre (ds.take 3)) (take_pre 3 ds)
  · intro now msgs
    simp only [sendMessage, Option.getD_some, Bool.not_true, Bool.false_and,
      Bool.false_eq_true, if_false, ite_false]
    have hn : normalizeTimestamp "2017-04-08T17:36:10.540Z" = "2017-04-08T17:36:10.54Z" := by
      decide
    rw [hn]

/-- C8: a client-side `sendMessage` with an explicit `created_at` or
`updated_at` is rejected with an error mentioning
`message.updated_at or message.created_at` and no message is created, while
the same call on a server-side client succeeds and appends the message. -/
theorem client_custom_timestamps_rejected (req : SendMessageReq) (now : String)
    (msgs : List StoredMsg)
    (h : req.created_at.isSome = true ∨ req.updated_at.isSome = true) :
    (∃ pre post, sendMessage false req now msgs
        = Except.error (pre ++ "message.updated_at or message.created_at" ++ post))
    ∧ ∃ m, sendMessage true req now msgs = Except.ok (msgs ++ [m]) := by
  constructor
  · refine ⟨"", " cannot be set client side", ?_⟩
    have hcond : (req.created_at.isSome || req.updated_at.isSome) = true := by
      rcases h with h | h <;> simp [h]
    simp only [sendMessage, Bool.not_false, Bool.true_and, hcond, if_true, ite_true]
    congr 1
  · exact ⟨{ text := req.text,
             created_at := normalizeTimestamp (req.created_at.getD now),
             updated_at := normalizeTimestamp (req.updated_at.getD now) },
           by simp [sendMessage]⟩

/-- Witness for C8: the concrete test request with a custom `created_at` is
rejected client side and accepted server side. -/
theorem client_custom_timestamps_rejected_witness :
    (∃ pre post, sendMessage false
        { text := "an old message", created_at := some "2017-04-08T17:36:10.540Z",
          updated_at := none } "2018-01-01T00:00:00Z" []
        = Except.error (pre ++ "message.updated_at or message.created_at" ++ post))
    ∧ ∃ m, sendMessage true
        { text := "an old message", created_at := some "2017-04-08T17:36:10.540Z",
          updated_at := none } "2018-01-01T00:00:00Z" [] = Except.ok ([] ++ [m]) :=
  client_custom_timestamps_rejected _ _ _ (Or.inl rfl)

/-- C9: server-side `markRead` without a user fails with
`Please specify a user when sending an event server side`, and succeeds when
a user is provided. -/
theorem markRead_requires_user_server_side :
    markRead true none
      = Except.error "Please specify a user when sending an event server side"
    ∧ ∀ uid : String, markRead true (some uid) = Except.ok () :=
  ⟨rfl, fun _ => rfl⟩

/-- C10: `muteUser` followed by `unmuteUser` for the same source and target
round-trips to the initial state: after `muteUser` the mutes list of the
source user contains exactly one entry whose target is the muted user, after
`unmuteUser` it is empty, and both operations fail when no source user is set
on a server-side client. -/
theorem mute_unmute_roundtrip (src target : String) :
    muteUser target (some src) [] = Except.ok [{ user := src, target := target }]
    ∧ unmuteUser target (some src) [{ user := src, target := target }] = Except.ok []
    ∧ (∀ mutes : List Mute, ∃ e, muteUser target none mutes = Except.error e)
    ∧ (∀ mutes : List Mute, ∃ e, unmuteUser target none mutes = Except.error e) := by
  refine ⟨rfl, ?_, fun _ => ⟨_, rfl⟩, fun _ => ⟨_, rfl⟩⟩
  simp [unmuteUser]

end StreamChat
